import Mathlib

/-!
Verification of the nanobot_streamlit agent core against its specification.

The development shallowly embeds the parts of the repository that the
properties below speak about:

* `llm.py`   — `extract_response`, `build_tool_schemas`,
               `_python_type_to_json_schema`, and the retry loop of
               `chat_completion`;
* `agent.py` — the tool registry dispatch `_execute_tool`,
               `_extract_done_message`, `_summarize_max_iterations`, and the
               round loop of `Agent.run`;
* `tools.py` — `done`, `_session_has_incomplete_todos`, `spawn_subagent`,
               and the session-scoped todo store.

Python strings are Lean `String`s, Python `dict`s coming from JSON are
association lists, machine floats of the retry schedule are modelled as `ℚ`
(the schedule only multiplies, doubles, caps and compares, which the float
code performs exactly on the small values involved), and exceptions are an
explicit `PyExc` sum threaded through `Except`.  External effects (the
LiteLLM network call, the random jitter draw, a child agent run) are oracles
passed in as explicit arguments.
-/

/-- Python exceptions that the embedded code paths can raise or catch.
`apiError` stands for an exception coming out of `litellm.acompletion`
(carrying an optional `status_code` attribute, and flags for
`TimeoutError` / `ConnectionError` instances); `typeError` for `TypeError`;
`jsonDecodeError` for `json.JSONDecodeError`; `otherError` for any other
`Exception`. -/
inductive PyExc where
  | typeError (msg : String)
  | jsonDecodeError (msg : String)
  | apiError (msg : String) (status : Option Nat) (isTimeout : Bool) (isConnError : Bool)
  | otherError (msg : String)
deriving DecidableEq

/-- `str(exc)`: the message a Python `except` handler interpolates. -/
def PyExc.message : PyExc → String
  | .typeError m => m
  | .jsonDecodeError m => m
  | .apiError m _ _ _ => m
  | .otherError m => m

/-- Whether the exception is a `TypeError` (caught by the first
`except TypeError` clause of `_execute_tool`). -/
def PyExc.isTypeError : PyExc → Bool
  | .typeError _ => true
  | _ => false

/-- `getattr(exc, "status_code", None)` in `chat_completion`. -/
def PyExc.statusCode : PyExc → Option Nat
  | .apiError _ s _ _ => s
  | _ => none

/-- `isinstance(exc, (TimeoutError, ConnectionError))` in `chat_completion`. -/
def PyExc.isTimeoutOrConn : PyExc → Bool
  | .apiError _ _ t c => t || c
  | _ => false

/-- A JSON value as `json.loads` produces it.  Numeric literals are modelled
as integers (the claims never involve fractional payloads). -/
inductive Json where
  | null
  | bool (b : Bool)
  | num (n : Int)
  | str (s : String)
  | arr (items : List Json)
  | obj (fields : List (String × Json))

/-- Insert a key into an object's field list with Python-`dict` semantics:
a repeated key keeps its first position but takes the latest value. -/
def insertKV (kvs : List (String × Json)) (k : String) (v : Json) :
    List (String × Json) :=
  if kvs.any (fun p => p.1 = k) then
    kvs.map (fun p => if p.1 = k then (k, v) else p)
  else
    kvs ++ [(k, v)]

/-- First value bound to a key in an object's field list. -/
def lookupKV (kvs : List (String × Json)) (k : String) : Option Json :=
  match kvs with
  | [] => none
  | (k1, v) :: rest => if k1 = k then some v else lookupKV rest k

/-- The whitespace characters JSON (and Python's `json` module) skips
between tokens. -/
def isJsonWs (c : Char) : Bool :=
  c = ' ' || c = '\t' || c = '\n' || c = '\r'

/-- Characters Python's `str.strip()` removes (the ASCII whitespace the
repository's strings can contain). -/
def isPySpace (c : Char) : Bool :=
  c = ' ' || c = '\t' || c = '\n' || c = '\r' || c = '\u000B' || c = '\u000C'

/-- Python `s.strip()` on the character list of a string. -/
def pyStripList (l : List Char) : List Char :=
  ((l.dropWhile isPySpace).reverse.dropWhile isPySpace).reverse

/-- Python `s.strip()`. -/
def pyStrip (s : String) : String :=
  String.mk (pyStripList s.data)

/-- Python `s.startswith(pre)` (char-list form, so that concrete instances
reduce definitionally). -/
def pyStartsWith (s pre : String) : Bool :=
  pre.data.isPrefixOf s.data

/-- Python `s[n:]` (char-list form). -/
def pyDrop (s : String) (n : Nat) : String :=
  String.mk (s.data.drop n)

/-- Decode the four-hex-digit payload of a `\uXXXX` JSON escape. -/
def hexVal (c : Char) : Option Nat :=
  if '0' ≤ c ∧ c ≤ '9' then some (c.toNat - '0'.toNat)
  else if 'a' ≤ c ∧ c ≤ 'f' then some (c.toNat - 'a'.toNat + 10)
  else if 'A' ≤ c ∧ c ≤ 'F' then some (c.toNat - 'A'.toNat + 10)
  else none

/-- Parse the body of a JSON string literal (after the opening quote),
returning the decoded text and the input past the closing quote. -/
def parseJsonString : Nat → List Char → List Char → Except String (String × List Char)
  | 0, _, _ => .error "Unterminated string"
  | _ + 1, acc, [] => .error ("Unterminated string starting near: " ++ String.mk acc.reverse)
  | fuel + 1, acc, c :: rest =>
    if c = '"' then .ok (String.mk acc.reverse, rest)
    else if c = '\\' then
      match rest with
      | [] => .error "Unterminated escape"
      | e :: rest2 =>
        if e = '"' then parseJsonString fuel ('"' :: acc) rest2
        else if e = '\\' then parseJsonString fuel ('\\' :: acc) rest2
        else if e = '/' then parseJsonString fuel ('/' :: acc) rest2
        else if e = 'n' then parseJsonString fuel ('\n' :: acc) rest2
        else if e = 't' then parseJsonString fuel ('\t' :: acc) rest2
        else if e = 'r' then parseJsonString fuel ('\r' :: acc) rest2
        else if e = 'b' then parseJsonString fuel ('\u0008' :: acc) rest2
        else if e = 'f' then parseJsonString fuel ('\u000C' :: acc) rest2
        else if e = 'u' then
          match rest2 with
          | h1 :: h2 :: h3 :: h4 :: rest3 =>
            match hexVal h1, hexVal h2, hexVal h3, hexVal h4 with
            | some a, some b, some c3, some d =>
              let n := ((a * 16 + b) * 16 + c3) * 16 + d
              parseJsonString fuel (Char.ofNat n :: acc) rest3
            | _, _, _, _ => .error "Invalid \\u escape"
          | _ => .error "Truncated \\u escape"
        else .error ("Invalid escape: \\" ++ String.mk [e])
    else parseJsonString fuel (c :: acc) rest

/-- Parse a run of decimal digits into a natural number. -/
def parseDigits (acc : Nat) : List Char → Nat × List Char
  | [] => (acc, [])
  | c :: rest =>
    if c.isDigit then parseDigits (acc * 10 + (c.toNat - '0'.toNat)) rest
    else (acc, c :: rest)

mutual

/-- Recursive-descent JSON value parse, mirroring `json.loads` on the
modelled grammar.  `fuel` bounds the recursion depth. -/
def parseJsonVal : Nat → List Char → Except String (Json × List Char)
  | 0, _ => .error "Recursion limit"
  | fuel + 1, input =>
    match input.dropWhile isJsonWs with
    | [] => .error "Expecting value"
    | c :: rest =>
      if c = 'n' then
        match rest with
        | 'u' :: 'l' :: 'l' :: rest2 => .ok (.null, rest2)
        | _ => .error "Expecting value"
      else if c = 't' then
        match rest with
        | 'r' :: 'u' :: 'e' :: rest2 => .ok (.bool true, rest2)
        | _ => .error "Expecting value"
      else if c = 'f' then
        match rest with
        | 'a' :: 'l' :: 's' :: 'e' :: rest2 => .ok (.bool false, rest2)
        | _ => .error "Expecting value"
      else if c = '"' then
        match parseJsonString (rest.length + 1) [] rest with
        | .ok (s, rest2) => .ok (.str s, rest2)
        | .error e => .error e
      else if c = '[' then
        match (rest.dropWhile isJsonWs) with
        | ']' :: rest2 => .ok (.arr [], rest2)
        | _ => parseJsonArrItems fuel rest []
      else if c = '\x7b' then
        match (rest.dropWhile isJsonWs) with
        | '\x7d' :: rest2 => .ok (.obj [], rest2)
        | _ => parseJsonObjItems fuel rest []
      else if c = '-' then
        match rest with
        | d :: _ =>
          if d.isDigit then
            let (n, rest2) := parseDigits 0 rest
            .ok (.num (-(Int.ofNat n)), rest2)
          else .error "Expecting value"
        | [] => .error "Expecting value"
      else if c.isDigit then
        let (n, rest2) := parseDigits 0 (c :: rest)
        .ok (.num (Int.ofNat n), rest2)
      else .error "Expecting value"

/-- Parse the comma-separated items of a JSON array (after `[`). -/
def parseJsonArrItems : Nat → List Char → List Json → Except String (Json × List Char)
  | 0, _, _ => .error "Recursion limit"
  | fuel + 1, input, acc =>
    match parseJsonVal fuel input with
    | .error e => .error e
    | .ok (v, rest) =>
      match rest.dropWhile isJsonWs with
      | ']' :: rest2 => .ok (.arr (acc ++ [v]), rest2)
      | ',' :: rest2 => parseJsonArrItems fuel rest2 (acc ++ [v])
      | _ => .error "Expecting ',' delimiter"

/-- Parse the comma-separated members of a JSON object (after the opening
brace). -/
def parseJsonObjItems : Nat → List Char → List (String × Json) →
    Except String (Json × List Char)
  | 0, _, _ => .error "Recursion limit"
  | fuel + 1, input, acc =>
    match input.dropWhile isJsonWs with
    | '"' :: rest =>
      match parseJsonString (rest.length + 1) [] rest with
      | .error e => .error e
      | .ok (k, rest2) =>
        match rest2.dropWhile isJsonWs with
        | ':' :: rest3 =>
          match parseJsonVal fuel rest3 with
          | .error e => .error e
          | .ok (v, rest4) =>
            let acc2 := insertKV acc k v
            match rest4.dropWhile isJsonWs with
            | '\x7d' :: rest5 => .ok (.obj acc2, rest5)
            | ',' :: rest5 => parseJsonObjItems fuel rest5 acc2
            | _ => .error "Expecting ',' delimiter"
        | _ => .error "Expecting ':' delimiter"
    | _ => .error "Expecting property name enclosed in double quotes"

end

/-- `json.loads` on the modelled grammar: a full-input parse; trailing
non-whitespace is the `Extra data` error, any failure is a
`json.JSONDecodeError`. -/
def json_loads (s : String) : Except PyExc Json :=
  match parseJsonVal (2 * s.length + 2) s.data with
  | .error e => .error (.jsonDecodeError e)
  | .ok (v, rest) =>
    if (rest.dropWhile isJsonWs).isEmpty then .ok v
    else .error (.jsonDecodeError "Extra data")

/-- `tc.function` of a LiteLLM tool-call entry: the tool name and the raw
argument payload (`arguments` is a JSON-encoded string, possibly `None`). -/
structure WireToolCall where
  id : String
  name : String
  arguments : Option String
deriving DecidableEq

/-- The `choices[0].message` of a LiteLLM response: text content (possibly
`None`) and the list of requested tool calls. -/
structure ChatResp where
  content : Option String
  toolCalls : List WireToolCall
deriving DecidableEq

/-- A parsed tool call as `extract_response` returns it. -/
structure ToolCall where
  id : String
  name : String
  arguments : Json

/-- `tc.function.arguments or "{}"`: `None` and the empty string fall back
to the empty-object payload. -/
def argPayload (a : Option String) : String :=
  match a with
  | none => "\x7b\x7d"
  | some s => if s = "" then "\x7b\x7d" else s

/-- The `for tc in message.tool_calls` loop of `extract_response`: each
entry's arguments are parsed in order; the first `json.loads` failure
raises. -/
def parseWireCalls : List WireToolCall → Except PyExc (List ToolCall)
  | [] => .ok []
  | tc :: rest =>
    match json_loads (argPayload tc.arguments) with
    | .error e => .error e
    | .ok args =>
      match parseWireCalls rest with
      | .error e => .error e
      | .ok more => .ok ({ id := tc.id, name := tc.name, arguments := args } :: more)

/-- `llm.extract_response`: parse a LiteLLM response into
`(text_content, tool_calls)`.  `json.loads` failures on an argument payload
propagate as a raised `PyExc` (the code does not guard the parse);
`message.content or None` turns an empty text into `None`. -/
def extract_response (r : ChatResp) : Except PyExc (Option String × List ToolCall) :=
  match parseWireCalls r.toolCalls with
  | .error e => .error e
  | .ok calls =>
    let text := match r.content with
      | none => none
      | some c => if c = "" then none else some c
    .ok (text, calls)

/-! ## Session-scoped tool state (`tools.py`)

`_TODOS_BY_SESSION` and the active-session context variable, the mutable
module state the todo tools and `_session_has_incomplete_todos` read. -/

/-- Status of a todo item (`tools._parse_todo_item` statuses). -/
inductive TodoStatus where
  | pending
  | inProgress
  | completed
deriving DecidableEq

/-- One `{"content": ..., "status": ...}` entry of `_TODOS_BY_SESSION`. -/
structure TodoItem where
  content : String
  status : TodoStatus
deriving DecidableEq

/-- The `tools.py` module state a tool call can read and write:
`_TODOS_BY_SESSION` (keyed by session id) and the bound active session id. -/
structure ToolState where
  todos : String → List TodoItem
  active : String

/-- `tools._todo_stats`: `(pending, in_progress, completed)` counts for a
session. -/
def _todo_stats (ts : ToolState) (sessionId : String) : Nat × Nat × Nat :=
  let l := ts.todos sessionId
  ( (l.filter (fun t => t.status = .pending)).length
  , (l.filter (fun t => t.status = .inProgress)).length
  , (l.filter (fun t => t.status = .completed)).length )

/-- `tools._has_incomplete_todos`: pending + in-progress count positive. -/
def _has_incomplete_todos (ts : ToolState) (sessionId : String) : Bool :=
  let s := _todo_stats ts sessionId
  decide (0 < s.1 + s.2.1)

/-- `tools._session_has_incomplete_todos`: the check against the active
session. -/
def _session_has_incomplete_todos (ts : ToolState) : Bool :=
  _has_incomplete_todos ts ts.active

/-- `tools._set_active_session_id`:
`(session_id or "default").strip() or "default"`. -/
def _set_active_session_id (ts : ToolState) (sessionId : String) : ToolState :=
  let s1 := if sessionId = "" then "default" else sessionId
  let s2 := pyStrip s1
  { ts with active := if s2 = "" then "default" else s2 }

/-! ## Tool registry and dispatch (`agent.py`) -/

/-- A registered tool callable: its keyword parameters (those without a
default are required) and its body.  The body runs over the tool module
state and either returns the result string or raises. -/
structure ToolFn where
  required : List String
  optional : List String
  body : List (String × Json) → ToolState → Except PyExc String × ToolState

/-- The keyword-binding check Python performs at `fn(**arguments)`:
a missing required keyword, an unexpected keyword, or a non-mapping
`arguments` raise `TypeError` before the body runs.  The message texts
stand in for CPython's (only the exception class matters downstream). -/
def bindKwargs (fn : ToolFn) (args : Json) : Option String :=
  match args with
  | .obj kvs =>
    match fn.required.find? (fun r => (lookupKV kvs r).isNone) with
    | some r => some ("missing a required argument: '" ++ r ++ "'")
    | none =>
      match kvs.find? (fun kv =>
          !(fn.required.contains kv.1 || fn.optional.contains kv.1)) with
      | some kv => some ("got an unexpected keyword argument '" ++ kv.1 ++ "'")
      | none => none
  | _ => some "argument after ** must be a mapping"

/-- `fn(**arguments)`: bind the keyword arguments, then run the body. -/
def callTool (fn : ToolFn) (args : Json) (ts : ToolState) :
    Except PyExc String × ToolState :=
  match bindKwargs fn args with
  | some m => (.error (.typeError m), ts)
  | none =>
    match args with
    | .obj kvs => fn.body kvs ts
    | _ => (.error (.typeError "argument after ** must be a mapping"), ts)

/-- `agent._execute_tool`: look the tool up in the registry and call it,
converting every failure into an error string (`except TypeError` first,
then `except Exception`).  The function always returns a string: raising is
not a possible outcome. -/
def _execute_tool (registry : String → Option ToolFn) (ts : ToolState)
    (name : String) (args : Json) : String × ToolState :=
  match registry name with
  | none => ("Error: unknown tool '" ++ name ++ "'.", ts)
  | some fn =>
    match callTool fn args ts with
    | (.ok s, ts2) => (s, ts2)
    | (.error e, ts2) =>
      if e.isTypeError then
        ("Error calling tool '" ++ name ++ "': " ++ e.message, ts2)
      else
        ("Tool '" ++ name ++ "' raised an error: " ++ e.message, ts2)

/-! ## The `done` tool (`tools.py`) -/

/-- `tools.TASK_COMPLETE_PREFIX` (renamed: Lean-side naming constraint). -/
def TASK_COMPLETE_MARK : String := "TASK COMPLETE:"

/-- Python `f"{x}"` on a JSON value that reached a `str`-annotated
parameter (tool arguments come from JSON, so any value can arrive). -/
def formatPy : Json → String
  | .null => "None"
  | .bool true => "True"
  | .bool false => "False"
  | .num n => toString n
  | .str s => s
  | .arr _ => "[...]"
  | .obj _ => "\x7b...\x7d"

/-- `tools.done`: `f"{TASK_COMPLETE_PREFIX} {message}".strip()`. -/
def done (message : Json) : String :=
  pyStrip (TASK_COMPLETE_MARK ++ " " ++ formatPy message)

/-- The `done` tool as registered (required parameter `message`). -/
def doneTool : ToolFn where
  required := ["message"]
  optional := []
  body := fun kvs ts =>
    match lookupKV kvs "message" with
    | some v => (.ok (done v), ts)
    | none => (.error (.typeError "missing a required argument: 'message'"), ts)

/-- `agent._extract_done_message`: recover the final answer text when the
`done` tool's (stripped) result carries the completion marker; an empty
remainder falls back to "Task completed.". -/
def _extract_done_message (toolName : String) (result : String) : Option String :=
  let text := pyStrip result
  if toolName = "done" && pyStartsWith text TASK_COMPLETE_MARK then
    let final := pyStrip (pyDrop text TASK_COMPLETE_MARK.length)
    some (if final = "" then "Task completed." else final)
  else none


/-! ## The agent round loop (`agent.Agent.run`)

The LLM is external: the outcome of the k-th `chat_completion` call of a
`run()` invocation is an oracle `chat : Nat → Except PyExc ChatResp`
(`chat_completion`'s internal retry schedule is modelled separately below).
The loop threads the in-run message list, the persisted session history
(`Session` appends), the one-shot todo-nudge flag, the tool module state,
and a trace of the requests issued to the model gateway. -/

/-- A message of the conversation / in-run message list. -/
inductive Msg where
  | system (content : String)
  | user (content : String)
  | assistant (content : String)
  | assistantToolCalls (content : Option String) (calls : List ToolCall)
  | toolResult (callId : String) (name : String) (content : String)

/-- A request issued to the model gateway: the message list sent and
whether tool schemas were attached (`tools=_TOOL_SCHEMAS` vs `tools=None`). -/
structure ChatReq where
  msgs : List Msg
  toolsEnabled : Bool

/-- What a finished `Agent.run` invocation produced: the returned text, the
persisted session history, the final in-run message list, the trace of
model-gateway requests, and the final tool module state. -/
structure RunOutcome where
  final : String
  sess : List Msg
  msgs : List Msg
  calls : List ChatReq
  ts : ToolState

/-- `agent.MAX_TOOL_ITERATIONS`. -/
def MAX_TOOL_ITERATIONS : Nat := 25

/-- `agent.MAX_ITERATIONS_SUMMARY_PROMPT`. -/
def MAX_ITERATIONS_SUMMARY_PROMPT : String :=
  "The task reached the maximum number of tool iterations.\nProvide a concise summary with:\n1) What was accomplished\n2) What remains incomplete\n3) Recommended next action\nKeep it brief and actionable."

/-- The canned fallback `_summarize_max_iterations` returns when the extra
model call fails or yields no usable text. -/
def MAX_ITERATIONS_FALLBACK : String :=
  "I reached the maximum number of tool iterations without a final answer."

/-- The synthetic continuation message the loop appends when the model
stops with incomplete todos. -/
def TODO_NUDGE_TEXT : String :=
  "You still have incomplete todos. Continue working, update the todo list, and call done() only when finished."

/-- `session.MAX_HISTORY_MESSAGES`. -/
def MAX_HISTORY_MESSAGES : Nat := 40

/-- `Session.get_messages`: the last `n` entries of the history. -/
def lastN (n : Nat) (l : List Msg) : List Msg :=
  l.drop (l.length - n)

/-- The environment of one `Agent.run` invocation: the model-gateway
oracle, the discovered tool registry, the assembled system prompt, and the
session id the run binds for tool execution. -/
structure AgentEnv where
  chat : Nat → Except PyExc ChatResp
  registry : String → Option ToolFn
  systemPrompt : String
  sessionId : String

/-- Result of running the tool calls of one round (the `for tc in
tool_calls` loop): updated message list, session history and tool state,
plus the completion text when a `done` result short-circuited the round
(in which case the remaining calls were never dispatched). -/
structure ToolRoundOut where
  msgs : List Msg
  sess : List Msg
  ts : ToolState
  doneText : Option String

/-- The `for tc in tool_calls` loop body of `Agent.run`: dispatch each
call, append its result to the message list and the session, and stop at
the first `done`-marker result. -/
def execToolCalls (registry : String → Option ToolFn) :
    List ToolCall → List Msg → List Msg → ToolState → ToolRoundOut
  | [], msgs, sess, ts => { msgs, sess, ts, doneText := none }
  | tc :: rest, msgs, sess, ts =>
    let r := _execute_tool registry ts tc.name tc.arguments
    let msgs2 := msgs ++ [Msg.toolResult tc.id tc.name r.1]
    let sess2 := sess ++ [Msg.toolResult tc.id tc.name r.1]
    match _extract_done_message tc.name r.1 with
    | some t => { msgs := msgs2, sess := sess2, ts := r.2, doneText := some t }
    | none => execToolCalls registry rest msgs2 sess2 r.2

/-- `agent._summarize_max_iterations`: one extra model call with
`tools=None` and the summary instruction appended; any raised exception,
or empty text, falls back to the canned message.  Returns the final text
and the request it issued. -/
def _summarize_max_iterations (env : AgentEnv) (callIdx : Nat)
    (messages : List Msg) : String × ChatReq :=
  let req : ChatReq :=
    { msgs := messages ++ [Msg.user MAX_ITERATIONS_SUMMARY_PROMPT]
    , toolsEnabled := false }
  let text :=
    match env.chat callIdx with
    | .error _ => MAX_ITERATIONS_FALLBACK
    | .ok resp =>
      match extract_response resp with
      | .error _ => MAX_ITERATIONS_FALLBACK
      | .ok (none, _) => MAX_ITERATIONS_FALLBACK
      | .ok (some t, _) =>
        if pyStrip t = "" then MAX_ITERATIONS_FALLBACK
        else "[Max iterations reached]\n\n" ++ pyStrip t
  (text, req)

/-- The round loop of `Agent.run` (`for _ in range(MAX_TOOL_ITERATIONS)`),
with `fuel` the remaining rounds, `prompted` the `incomplete_todos_prompted`
flag, and `trace` the model-gateway requests issued so far (its length is
the oracle index of the next call).  A `chat_completion` failure after its
retries, or a `json.loads` failure inside `extract_response`, propagates
out of `run` as a raised exception. -/
def runRounds (env : AgentEnv) :
    Nat → List Msg → List Msg → Bool → List ChatReq → ToolState →
    Except PyExc RunOutcome
  | 0, messages, sess, _, trace, ts =>
    let s := _summarize_max_iterations env trace.length messages
    .ok { final := s.1, sess := sess ++ [Msg.assistant s.1], msgs := messages
        , calls := trace ++ [s.2], ts }
  | fuel + 1, messages, sess, prompted, trace, ts =>
    match env.chat trace.length with
    | .error e => .error e
    | .ok resp =>
      let trace2 := trace ++ [{ msgs := messages, toolsEnabled := true : ChatReq }]
      match extract_response resp with
      | .error e => .error e
      | .ok (text, toolCalls) =>
        match toolCalls with
        | [] =>
          if !prompted && _session_has_incomplete_todos ts then
            runRounds env fuel (messages ++ [Msg.user TODO_NUDGE_TEXT]) sess
              true trace2 ts
          else
            let finalText := text.getD "(no response)"
            .ok { final := finalText, sess := sess ++ [Msg.assistant finalText]
                , msgs := messages, calls := trace2, ts }
        | tc0 :: tcs =>
          let aMsg := Msg.assistantToolCalls resp.content (tc0 :: tcs)
          let out := execToolCalls env.registry (tc0 :: tcs)
            (messages ++ [aMsg]) (sess ++ [aMsg]) ts
          match out.doneText with
          | some t =>
            .ok { final := t, sess := out.sess ++ [Msg.assistant t]
                , msgs := out.msgs, calls := trace2, ts := out.ts }
          | none => runRounds env fuel out.msgs out.sess prompted trace2 out.ts

/-- `Agent.run`: bind the session id for tool execution, persist the user
message, assemble the system prompt plus the trailing history window, and
enter the round loop. -/
def agent_run (env : AgentEnv) (session0 : List Msg) (userMessage : String)
    (ts0 : ToolState) : Except PyExc RunOutcome :=
  let ts := _set_active_session_id ts0 env.sessionId
  let sess := session0 ++ [Msg.user userMessage]
  let messages := Msg.system env.systemPrompt :: lastN MAX_HISTORY_MESSAGES sess
  runRounds env MAX_TOOL_ITERATIONS messages sess false [] ts

/-! ## Retry schedule of `llm.chat_completion`

The `litellm.acompletion` outcome at each attempt and the
`random.uniform(0, 1)` draw scaled onto `[0, backoff * 0.1]` are oracles.
The model returns the final outcome together with the list of waits the
loop slept before each retry, in order. -/

/-- Oracles of one `chat_completion` call: the backend outcome of attempt
`k`, and the unit-interval random draw used for the jitter after attempt
`k` (`random.uniform(0, x) = x * u` with `u` drawn from `[0, 1]`). -/
structure RetryEnv where
  attemptResult : Nat → Except PyExc ChatResp
  rand : Nat → ℚ

/-- `retryable_status_codes` of `chat_completion`. -/
def retryable_status_codes : List Nat := [429, 500, 502, 503, 504]

/-- `should_retry`: a retryable HTTP status, or a timeout / connection
error. -/
def should_retry (e : PyExc) : Bool :=
  (match e.statusCode with
   | some s => retryable_status_codes.contains s
   | none => false) || e.isTimeoutOrConn

/-- `min(base_delay * (2 ** attempt), 20.0)`. -/
def backoffAt (baseDelay : ℚ) (attempt : Nat) : ℚ :=
  min (baseDelay * 2 ^ attempt) 20

/-- The jitter drawn after a failed attempt:
`random.uniform(0, backoff * 0.1)`. -/
def jitterAt (env : RetryEnv) (baseDelay : ℚ) (attempt : Nat) : ℚ :=
  env.rand attempt * (backoffAt baseDelay attempt / 10)

/-- The `for attempt in range(max_retries + 1)` loop of `chat_completion`:
return on success; re-raise when the attempt budget is exhausted or the
error is not retryable; otherwise sleep `backoff + jitter` and try again.
Also returns the sleeps performed, in order. -/
def chatRetryLoop (env : RetryEnv) (maxRetries : Nat) (baseDelay : ℚ)
    (attempt : Nat) : Except PyExc ChatResp × List ℚ :=
  match env.attemptResult attempt with
  | .ok r => (.ok r, [])
  | .error e =>
    if h : maxRetries ≤ attempt ∨ should_retry e = false then
      (.error e, [])
    else
      let rest := chatRetryLoop env maxRetries baseDelay (attempt + 1)
      (rest.1, (backoffAt baseDelay attempt + jitterAt env baseDelay attempt) :: rest.2)
termination_by maxRetries - attempt
decreasing_by
  push_neg at h
  omega

/-- `llm.chat_completion`, restricted to its retry behaviour: the loop
entered at attempt 0.  (The unreachable trailing `raise` guard of the
source is dead code: the loop always returns or raises.) -/
def chat_completion (env : RetryEnv) (maxRetries : Nat) (baseDelay : ℚ) :
    Except PyExc ChatResp × List ℚ :=
  chatRetryLoop env maxRetries baseDelay 0

/-- `st.secrets` default for `max_retries`. -/
def default_max_retries : Nat := 3

/-- `st.secrets` default for `retry_base_delay` (seconds). -/
def default_retry_base_delay : ℚ := 1

/-! ## Tool schema generation (`llm.build_tool_schemas`) -/

/-- A Python annotation as `inspect` reports it to
`_python_type_to_json_schema`: absent (`Parameter.empty`), one of the
mapped primitives, a `list[...]`, or anything else (unresolvable). -/
inductive PyAnn where
  | empty
  | pyStr
  | pyInt
  | pyFloat
  | pyBool
  | pyList (elem : PyAnn)
  | unresolved (typeName : String)
deriving DecidableEq

/-- A JSON-schema type descriptor as the code builds it. -/
inductive JsonSchemaTy where
  | string
  | integer
  | number
  | boolean
  | array (items : JsonSchemaTy)
deriving DecidableEq

/-- `llm._python_type_to_json_schema`. -/
def _python_type_to_json_schema : PyAnn → JsonSchemaTy
  | .empty => .string
  | .pyList a => .array (_python_type_to_json_schema a)
  | .pyStr => .string
  | .pyInt => .integer
  | .pyFloat => .number
  | .pyBool => .boolean
  | .unresolved _ => .string

/-- A parameter of a registered callable: name, annotation, and whether a
default value is present (`param.default is not Parameter.empty`). -/
structure PyParam where
  name : String
  ann : PyAnn
  hasDefault : Bool
deriving DecidableEq

/-- A registered callable as `inspect` exposes it: `__name__`, the cleaned
docstring (`inspect.getdoc`; `none` models a falsy result, which the code
replaces by the name), and the signature's parameters in order. -/
structure PyFn where
  name : String
  doc : Option String
  params : List PyParam

/-- The per-parameter entry of a generated schema. -/
structure PropSchema where
  ty : JsonSchemaTy
  description : Option String
deriving DecidableEq

/-- One generated tool schema (the `function` payload). -/
structure ToolSchema where
  name : String
  description : String
  properties : List (String × PropSchema)
  required : List String
deriving DecidableEq

/-- The `":param name:"` docstring tag. -/
def paramTag (name : String) : String := ":param " ++ name ++ ":"

/-- Split a character list at every occurrence of a separator character. -/
def splitOnChar (c : Char) : List Char → List (List Char)
  | [] => [[]]
  | x :: rest =>
    let r := splitOnChar c rest
    if x = c then [] :: r
    else
      match r with
      | [] => [[x]]
      | h :: t => (x :: h) :: t

/-- Python `s.splitlines()` for `\n`-separated text (the newline kind the
docstrings of this repository contain): each newline terminates a line,
and a trailing newline does not open an empty final line. -/
def pySplitLines (s : String) : List String :=
  match s.data with
  | [] => []
  | l =>
    let parts := (splitOnChar '\n' l).map String.mk
    if l.getLast? = some '\n' then parts.dropLast else parts

/-- Split a character list at the first occurrence of a (non-empty)
separator: `some (before, after)`, or `none` when the separator does not
occur. -/
def splitFirst (sep : List Char) : List Char → Option (List Char × List Char)
  | [] => if sep = [] then some ([], []) else none
  | x :: rest =>
    if sep.isPrefixOf (x :: rest) then some ([], (x :: rest).drop sep.length)
    else
      match splitFirst sep rest with
      | some (pre, post) => some (x :: pre, post)
      | none => none

/-- Python `line.split(tag, 1)[1]`: the text after the first occurrence of
`tag`, or `none` when `tag not in line`. -/
def splitAfterTag (tag line : String) : Option String :=
  match splitFirst tag.data line.data with
  | some (_, post) => some (String.mk post)
  | none => none

/-- The docstring scan for a `":param name:"` line: first matching line
wins, its remainder is stripped. -/
def findParamDescription (docLines : List String) (name : String) : Option String :=
  match docLines with
  | [] => none
  | line :: rest =>
    match splitAfterTag (paramTag name) line with
    | some tail => some (pyStrip tail)
    | none => findParamDescription rest name

/-- `llm.build_tool_schemas` for one callable:
`doc = inspect.getdoc(fn) or fn.__name__`, the description is the first
doc line stripped, each parameter gets its inferred type and optional
`":param"` description, and is required iff it has no default. -/
def build_tool_schema (fn : PyFn) : ToolSchema :=
  let doc := fn.doc.getD fn.name
  let docLines := pySplitLines doc
  { name := fn.name
  , description := pyStrip (docLines.headD "")
  , properties := fn.params.map (fun p =>
      (p.name
      , { ty := _python_type_to_json_schema p.ann
        , description := findParamDescription docLines p.name }))
  , required := (fn.params.filter (fun p => !p.hasDefault)).map (fun p => p.name) }

/-- `llm.build_tool_schemas`. -/
def build_tool_schemas (fns : List PyFn) : List ToolSchema :=
  fns.map build_tool_schema

/-! ## Subagent spawning (`tools.spawn_subagent`)

The nesting depth lives in the `ContextVar` `_SUBAGENT_DEPTH_CTX`: each
call chain carries its own value.  The child agent run is an oracle that
receives the depth its execution context carries. -/

/-- Oracles of a `spawn_subagent` call: the child agent run (given the
depth bound in the child's context and the composed prompt) and the
generated child session id (`f"sub_{parent}_{int(time.time())}"`). -/
structure SpawnEnv where
  childRun : Nat → String → String
  childSessionId : String

/-- What a `spawn_subagent` call did: the returned string, and the child
conversation it created, if any (the composed child prompt and the depth
set in the child's execution context). -/
structure SpawnOut where
  result : String
  child : Option (String × Nat)

/-- `tools.spawn_subagent` as a function of the depth its own call context
carries. -/
def spawn_subagent (env : SpawnEnv) (depth : Nat) (task prefixArg : String) :
    SpawnOut :=
  if 1 ≤ depth then
    { result := "Error: subagent nesting depth exceeded.", child := none }
  else if pyStrip task = "" then
    { result := "Error: task is required.", child := none }
  else
    let childPrompt :=
      if pyStrip prefixArg = "" then task
      else pyStrip (pyStrip prefixArg ++ "\n\n" ++ task)
    let r := env.childRun (depth + 1) childPrompt
    { result := "Subagent session: " ++ env.childSessionId ++ "\nTask: " ++
        task ++ "\n\nResult:\n" ++ r
    , child := some (childPrompt, depth + 1) }

/-- `ContextVar.set` restricted to one call chain's context: contexts of
other chains (concurrent top-level conversations) are untouched. -/
def ctxSet (store : String → Nat) (chain : String) (v : Nat) : String → Nat :=
  fun c => if c = chain then v else store c

/-- `spawn_subagent` with the `ContextVar` mechanics explicit: read the
depth from the calling chain's context, set `depth + 1` around the child
run (`token = ...set(...)`), and restore it afterwards (`...reset(token)`).
Returns the call's outcome and the depth store after the call. -/
def spawn_in_context (env : SpawnEnv) (store : String → Nat) (chain : String)
    (task prefixArg : String) : SpawnOut × (String → Nat) :=
  let depth := store chain
  if 1 ≤ depth then
    ({ result := "Error: subagent nesting depth exceeded.", child := none }, store)
  else if pyStrip task = "" then
    ({ result := "Error: task is required.", child := none }, store)
  else
    let childPrompt :=
      if pyStrip prefixArg = "" then task
      else pyStrip (pyStrip prefixArg ++ "\n\n" ++ task)
    let store2 := ctxSet store chain (depth + 1)
    let r := env.childRun (store2 chain) childPrompt
    let store3 := ctxSet store2 chain depth
    ({ result := "Subagent session: " ++ env.childSessionId ++ "\nTask: " ++
         task ++ "\n\nResult:\n" ++ r
     , child := some (childPrompt, store2 chain) }, store3)


/-- The loop state after the assistant tool-call message was appended and a
prefix `pre` of the round's calls was dispatched. -/
def roundAfter (env : AgentEnv) (resp : ChatResp) (calls pre : List ToolCall)
    (messages sess : List Msg) (ts : ToolState) : ToolRoundOut :=
  execToolCalls env.registry pre
    (messages ++ [Msg.assistantToolCalls resp.content calls])
    (sess ++ [Msg.assistantToolCalls resp.content calls]) ts

/-! ## Helper lemmas -/

/-- `dropWhile` skips a whole block that satisfies the predicate. -/
theorem dropWhile_append_all {p : Char → Bool} (l1 l2 : List Char)
    (h : ∀ a ∈ l1, p a = true) :
    (l1 ++ l2).dropWhile p = l2.dropWhile p := by
  induction l1 with
  | nil => rfl
  | cons c rest ih =>
    have hc : p c = true := h c (List.mem_cons_self c rest)
    simp only [List.cons_append, List.dropWhile, hc]
    exact ih (fun a ha => h a (List.mem_cons_of_mem c ha))

/-- Appending whitespace-only text after `"TASK COMPLETE: "` strips back to
the bare marker. -/
theorem pyStrip_mark_pad (m : String) (h : m.data.all isPySpace) :
    pyStrip (TASK_COMPLETE_MARK ++ " " ++ m) = TASK_COMPLETE_MARK := by
  have hall : ∀ a ∈ m.data.reverse ++ [' '], isPySpace a = true := by
    intro a ha
    rcases List.mem_append.1 ha with h1 | h1
    · exact List.all_eq_true.1 h a (List.mem_reverse.1 h1)
    · rcases List.mem_singleton.1 h1 with rfl
      rfl
  apply String.ext
  show pyStripList ((TASK_COMPLETE_MARK ++ " " ++ m)).data = _
  rw [String.data_append, String.data_append]
  unfold pyStripList
  have h1 : List.dropWhile isPySpace (TASK_COMPLETE_MARK.data ++ " ".data ++ m.data)
      = TASK_COMPLETE_MARK.data ++ " ".data ++ m.data := by
    show List.dropWhile isPySpace ('T' :: ("ASK COMPLETE:".data ++ " ".data ++ m.data))
        = 'T' :: ("ASK COMPLETE:".data ++ " ".data ++ m.data)
    rw [List.dropWhile_cons, show isPySpace 'T' = false from rfl]
    simp
  rw [h1]
  have h2 : (TASK_COMPLETE_MARK.data ++ " ".data ++ m.data).reverse
      = (m.data.reverse ++ [' ']) ++ TASK_COMPLETE_MARK.data.reverse := by
    simp
  rw [h2, dropWhile_append_all _ _ hall]
  have h3 : List.dropWhile isPySpace TASK_COMPLETE_MARK.data.reverse
      = TASK_COMPLETE_MARK.data.reverse := by decide
  rw [h3, List.reverse_reverse]

/-! ## Claim theorems -/

/-- C1: `_execute_tool` is a total function into result strings — for every
tool name and argument payload it returns a string and never raises.  An
unknown name yields the descriptive unknown-tool error; a keyword-binding
mismatch (missing required / unexpected keyword / non-mapping payload,
surfacing as `TypeError`) yields the error string naming the tool; a
`TypeError` escaping the callable is reported the same way; any other
exception raised by the callable yields the error string prefixed with the
tool name; a normal return passes the tool's string through. -/
theorem execute_tool_never_raises
    (registry : String → Option ToolFn) (ts : ToolState) (name : String)
    (args : Json) :
    (registry name = none →
      _execute_tool registry ts name args =
        ("Error: unknown tool '" ++ name ++ "'.", ts)) ∧
    (∀ fn, registry name = some fn →
      (∀ m ts2, callTool fn args ts = (.error (.typeError m), ts2) →
        _execute_tool registry ts name args =
          ("Error calling tool '" ++ name ++ "': " ++ m, ts2)) ∧
      (∀ e ts2, callTool fn args ts = (.error e, ts2) → e.isTypeError = false →
        _execute_tool registry ts name args =
          ("Tool '" ++ name ++ "' raised an error: " ++ e.message, ts2)) ∧
      (∀ s ts2, callTool fn args ts = (.ok s, ts2) →
        _execute_tool registry ts name args = (s, ts2)) ∧
      (∀ kvs, args = .obj kvs →
        ((∃ r ∈ fn.required, lookupKV kvs r = none) ∨
         (∃ kv ∈ kvs, ¬ (kv.1 ∈ fn.required ∨ kv.1 ∈ fn.optional))) →
        ∃ m, _execute_tool registry ts name args =
          ("Error calling tool '" ++ name ++ "': " ++ m, ts))) := by
  constructor
  · intro h
    simp [_execute_tool, h]
  · intro fn hfn
    refine ⟨?_, ?_, ?_, ?_⟩
    · intro m ts2 hc
      simp [_execute_tool, hfn, hc, PyExc.isTypeError, PyExc.message]
    · intro e ts2 hc he
      simp [_execute_tool, hfn, hc, he, PyExc.message]
    · intro s ts2 hc
      simp [_execute_tool, hfn, hc]
    · rintro kvs rfl hbad
      have hbind : ∃ m, bindKwargs fn (.obj kvs) = some m := by
        rcases hbad with ⟨r, hr, hlook⟩ | ⟨kv, hkv, hnotin⟩
        · have hs : (fn.required.find? (fun r => (lookupKV kvs r).isNone)).isSome := by
            rw [List.find?_isSome]
            exact ⟨r, hr, by simp [hlook]⟩
          obtain ⟨r0, hr0⟩ := Option.isSome_iff_exists.1 hs
          refine ⟨"missing a required argument: '" ++ r0 ++ "'", ?_⟩
          simp only [bindKwargs, hr0]
        · cases hfind : fn.required.find? (fun r => (lookupKV kvs r).isNone) with
          | some r0 =>
            refine ⟨"missing a required argument: '" ++ r0 ++ "'", ?_⟩
            simp only [bindKwargs, hfind]
          | none =>
            push_neg at hnotin
            have hs : (kvs.find? (fun kv =>
                !(fn.required.contains kv.1 || fn.optional.contains kv.1))).isSome := by
              rw [List.find?_isSome]
              refine ⟨kv, hkv, ?_⟩
              simp only [Bool.not_eq_true', Bool.or_eq_false_iff]
              constructor
              · simpa using hnotin.1
              · simpa using hnotin.2
            obtain ⟨kv0, hkv0⟩ := Option.isSome_iff_exists.1 hs
            refine ⟨"got an unexpected keyword argument '" ++ kv0.1 ++ "'", ?_⟩
            simp only [bindKwargs, hfind, hkv0]
      obtain ⟨m, hm⟩ := hbind
      refine ⟨m, ?_⟩
      simp [_execute_tool, hfn, callTool, hm, PyExc.isTypeError, PyExc.message]

/-- Witness for C1 at concrete inputs: an unknown tool name, and an
argument mismatch on the registered `done` tool. -/
theorem execute_tool_never_raises_witness :
    _execute_tool (fun n => if n = "done" then some doneTool else none)
        { todos := fun _ => [], active := "default" } "fetch_url" (.obj []) =
      ("Error: unknown tool 'fetch_url'.",
        { todos := fun _ => [], active := "default" }) ∧
    ∃ m, _execute_tool (fun n => if n = "done" then some doneTool else none)
        { todos := fun _ => [], active := "default" } "done"
        (.obj [("msg", .str "x")]) =
      ("Error calling tool 'done': " ++ m,
        { todos := fun _ => [], active := "default" }) := by
  constructor
  · exact (execute_tool_never_raises _ _ "fetch_url" _).1 rfl
  · exact ((execute_tool_never_raises _ _ "done" _).2 doneTool rfl).2.2.2 _ rfl
      (Or.inr ⟨("msg", .str "x"), by simp, by decide⟩)

/-- Splitting the tool-call loop: a prefix that did not trigger completion
hands its state to the rest; a prefix that did ends the loop there. -/
theorem execToolCalls_append (registry : String → Option ToolFn)
    (l1 l2 : List ToolCall) (msgs sess : List Msg) (ts : ToolState) :
    execToolCalls registry (l1 ++ l2) msgs sess ts =
      match (execToolCalls registry l1 msgs sess ts).doneText with
      | some _ => execToolCalls registry l1 msgs sess ts
      | none =>
        execToolCalls registry l2 (execToolCalls registry l1 msgs sess ts).msgs
          (execToolCalls registry l1 msgs sess ts).sess
          (execToolCalls registry l1 msgs sess ts).ts
  := by
  induction l1 generalizing msgs sess ts with
  | nil => simp [execToolCalls]
  | cons tc rest ih =>
    simp only [List.cons_append, execToolCalls]
    cases hd : _extract_done_message tc.name
        (_execute_tool registry ts tc.name tc.arguments).1 with
    | some t => simp [hd]
    | none => simp only [hd]; exact ih _ _ _


/-- C2: if, during a round, a dispatched call is the `done` tool and its
result (stripped) starts with the completion marker (so
`_extract_done_message` yields `some t`), the loop returns `t` at once:
the result and the final assistant message are persisted to the session,
the remaining calls of the round (`post`) are never dispatched (the final
session and message list contain only the prefix's results and this
call's), and no further model-gateway call is issued (`calls` ends with
this round's request). -/
theorem done_short_circuits_round
    (env : AgentEnv) (fuel : Nat) (messages sess : List Msg) (prompted : Bool)
    (trace : List ChatReq) (ts : ToolState) (resp : ChatResp)
    (text : Option String) (pre post : List ToolCall) (tc : ToolCall) (t : String)
    (hchat : env.chat trace.length = .ok resp)
    (hex : extract_response resp = .ok (text, pre ++ tc :: post))
    (hpre : (roundAfter env resp (pre ++ tc :: post) pre messages sess ts).doneText = none)
    (hdone : _extract_done_message tc.name
      (_execute_tool env.registry
        (roundAfter env resp (pre ++ tc :: post) pre messages sess ts).ts
        tc.name tc.arguments).1 = some t) :
    runRounds env (fuel + 1) messages sess prompted trace ts =
      .ok { final := t
          , sess := (roundAfter env resp (pre ++ tc :: post) pre messages sess ts).sess ++
              [Msg.toolResult tc.id tc.name
                (_execute_tool env.registry
                  (roundAfter env resp (pre ++ tc :: post) pre messages sess ts).ts
                  tc.name tc.arguments).1,
               Msg.assistant t]
          , msgs := (roundAfter env resp (pre ++ tc :: post) pre messages sess ts).msgs ++
              [Msg.toolResult tc.id tc.name
                (_execute_tool env.registry
                  (roundAfter env resp (pre ++ tc :: post) pre messages sess ts).ts
                  tc.name tc.arguments).1]
          , calls := trace ++ [{ msgs := messages, toolsEnabled := true }]
          , ts := (_execute_tool env.registry
              (roundAfter env resp (pre ++ tc :: post) pre messages sess ts).ts
              tc.name tc.arguments).2 } := by
  obtain ⟨tc0, tcs, hsplit⟩ : ∃ tc0 tcs, pre ++ tc :: post = tc0 :: tcs := by
    cases pre with
    | nil => exact ⟨tc, post, rfl⟩
    | cons p ps => exact ⟨p, ps ++ tc :: post, by simp⟩
  unfold roundAfter at hpre hdone ⊢
  have hstep : execToolCalls env.registry (pre ++ tc :: post)
      (messages ++ [Msg.assistantToolCalls resp.content (pre ++ tc :: post)])
      (sess ++ [Msg.assistantToolCalls resp.content (pre ++ tc :: post)]) ts =
      { msgs := (execToolCalls env.registry pre
          (messages ++ [Msg.assistantToolCalls resp.content (pre ++ tc :: post)])
          (sess ++ [Msg.assistantToolCalls resp.content (pre ++ tc :: post)]) ts).msgs ++
          [Msg.toolResult tc.id tc.name
            (_execute_tool env.registry
              (execToolCalls env.registry pre
                (messages ++ [Msg.assistantToolCalls resp.content (pre ++ tc :: post)])
                (sess ++ [Msg.assistantToolCalls resp.content (pre ++ tc :: post)]) ts).ts
              tc.name tc.arguments).1]
      , sess := (execToolCalls env.registry pre
          (messages ++ [Msg.assistantToolCalls resp.content (pre ++ tc :: post)])
          (sess ++ [Msg.assistantToolCalls resp.content (pre ++ tc :: post)]) ts).sess ++
          [Msg.toolResult tc.id tc.name
            (_execute_tool env.registry
              (execToolCalls env.registry pre
                (messages ++ [Msg.assistantToolCalls resp.content (pre ++ tc :: post)])
                (sess ++ [Msg.assistantToolCalls resp.content (pre ++ tc :: post)]) ts).ts
              tc.name tc.arguments).1]
      , ts := (_execute_tool env.registry
          (execToolCalls env.registry pre
            (messages ++ [Msg.assistantToolCalls resp.content (pre ++ tc :: post)])
            (sess ++ [Msg.assistantToolCalls resp.content (pre ++ tc :: post)]) ts).ts
          tc.name tc.arguments).2
      , doneText := some t } := by
    rw [execToolCalls_append]
    simp only [hpre]
    simp only [execToolCalls, hdone]
  rw [hsplit] at hex hstep ⊢
  simp only [runRounds, hchat, hex, hstep]
  simp

/-- Witness for C2: the completion tool is called with message "All done";
the loop returns exactly "All done", persists it, and issues no further
model call; the full `agent_run` returns exactly "All done". -/
theorem done_short_circuits_round_witness :
    runRounds
      { chat := fun k =>
          if k = 0 then
            .ok { content := none
                , toolCalls := [{ id := "call_1", name := "done"
                                , arguments := some "\x7b\"message\": \"All done\"\x7d" }] }
          else .error (.otherError "no further call")
      , registry := fun n => if n = "done" then some doneTool else none
      , systemPrompt := "sys", sessionId := "web_user" }
      25 [Msg.system "sys", Msg.user "Please finish"] [Msg.user "Please finish"]
      false [] { todos := fun _ => [], active := "web_user" } =
      .ok { final := "All done"
          , sess := [Msg.user "Please finish"
              , Msg.assistantToolCalls none
                  [{ id := "call_1", name := "done"
                   , arguments := .obj [("message", .str "All done")] }]
              , Msg.toolResult "call_1" "done" "TASK COMPLETE: All done"
              , Msg.assistant "All done"]
          , msgs := [Msg.system "sys", Msg.user "Please finish"
              , Msg.assistantToolCalls none
                  [{ id := "call_1", name := "done"
                   , arguments := .obj [("message", .str "All done")] }]
              , Msg.toolResult "call_1" "done" "TASK COMPLETE: All done"]
          , calls := [{ msgs := [Msg.system "sys", Msg.user "Please finish"]
                      , toolsEnabled := true }]
          , ts := { todos := fun _ => [], active := "web_user" } } ∧
    (agent_run
      { chat := fun k =>
          if k = 0 then
            .ok { content := none
                , toolCalls := [{ id := "call_1", name := "done"
                                , arguments := some "\x7b\"message\": \"All done\"\x7d" }] }
          else .error (.otherError "no further call")
      , registry := fun n => if n = "done" then some doneTool else none
      , systemPrompt := "sys", sessionId := "web_user" }
      [] "Please finish" { todos := fun _ => [], active := "default" }).map
        (fun o => o.final) = .ok "All done" := by
  constructor
  · exact done_short_circuits_round
      { chat := fun k =>
          if k = 0 then
            .ok { content := none
                , toolCalls := [{ id := "call_1", name := "done"
                                , arguments := some "\x7b\"message\": \"All done\"\x7d" }] }
          else .error (.otherError "no further call")
      , registry := fun n => if n = "done" then some doneTool else none
      , systemPrompt := "sys", sessionId := "web_user" }
      24 [Msg.system "sys", Msg.user "Please finish"] [Msg.user "Please finish"]
      false [] { todos := fun _ => [], active := "web_user" }
      { content := none
      , toolCalls := [{ id := "call_1", name := "done"
                      , arguments := some "\x7b\"message\": \"All done\"\x7d" }] }
      none [] []
      { id := "call_1", name := "done", arguments := .obj [("message", .str "All done")] }
      "All done" rfl rfl rfl rfl
  · rfl

/-- Success at attempt `a + m` after `m` retryable failures from attempt
`a` on: the loop returns the success and slept the scheduled waits. -/
theorem chatRetryLoop_ok (env : RetryEnv) (maxRetries : Nat) (baseDelay : ℚ) :
    ∀ m a r, a + m ≤ maxRetries → env.attemptResult (a + m) = .ok r →
    (∀ k, a ≤ k → k < a + m →
      ∃ e, env.attemptResult k = .error e ∧ should_retry e = true) →
    chatRetryLoop env maxRetries baseDelay a =
      (.ok r, (List.range m).map (fun i =>
        backoffAt baseDelay (a + i) + jitterAt env baseDelay (a + i))) := by
  intro m
  induction m with
  | zero =>
    intro a r _ hok _
    rw [Nat.add_zero] at hok
    unfold chatRetryLoop
    rw [hok]
    rfl
  | succ m ih =>
    intro a r hle hok hfail
    obtain ⟨e, he, hre⟩ := hfail a (le_refl a) (by omega)
    have hrec := ih (a + 1) r (by omega)
      (by rw [show a + 1 + m = a + (m + 1) by omega]; exact hok)
      (fun k hk1 hk2 => hfail k (by omega) (by omega))
    unfold chatRetryLoop
    simp only [he]
    rw [dif_neg (by push_neg; exact ⟨by omega, by simp [hre]⟩)]
    rw [hrec]
    simp only [Prod.mk.injEq, true_and]
    rw [List.range_succ_eq_map]
    simp only [List.map_cons, List.map_map, Nat.add_zero, List.cons.injEq, true_and]
    apply List.map_congr_left
    intro i _
    have h2 : a + Nat.succ i = a + 1 + i := by omega
    simp only [Function.comp_apply, h2]

/-- Every attempt from `a` through `maxRetries` fails retryably: the loop
stops at attempt `maxRetries`, re-raising that attempt's error, after
sleeping the scheduled wait for each earlier attempt. -/
theorem chatRetryLoop_exhaust (env : RetryEnv) (maxRetries : Nat) (baseDelay : ℚ) :
    ∀ m a, a + m = maxRetries →
    (∀ k, a ≤ k → k ≤ maxRetries →
      ∃ e, env.attemptResult k = .error e ∧ should_retry e = true) →
    ∃ e, env.attemptResult maxRetries = .error e ∧
      chatRetryLoop env maxRetries baseDelay a =
        (.error e, (List.range m).map (fun i =>
          backoffAt baseDelay (a + i) + jitterAt env baseDelay (a + i))) := by
  intro m
  induction m with
  | zero =>
    intro a ha hfail
    obtain ⟨e, he, hre⟩ := hfail a (le_refl a) (by omega)
    refine ⟨e, by rw [show maxRetries = a by omega]; exact he, ?_⟩
    unfold chatRetryLoop
    simp only [he]
    rw [dif_pos (Or.inl (show maxRetries ≤ a by omega))]
    rfl
  | succ m ih =>
    intro a ha hfail
    obtain ⟨e, he, hre⟩ := hfail a (le_refl a) (by omega)
    obtain ⟨elast, helast, hloop⟩ := ih (a + 1) (by omega)
      (fun k hk1 hk2 => hfail k (by omega) hk2)
    refine ⟨elast, helast, ?_⟩
    unfold chatRetryLoop
    simp only [he]
    rw [dif_neg (by push_neg; exact ⟨by omega, by simp [hre]⟩)]
    rw [hloop]
    simp only [Prod.mk.injEq, true_and]
    rw [List.range_succ_eq_map]
    simp only [List.map_cons, List.map_map, Nat.add_zero, List.cons.injEq, true_and]
    apply List.map_congr_left
    intro i _
    have h2 : a + Nat.succ i = a + 1 + i := by omega
    simp only [Function.comp_apply, h2]

/-- C3: the retry behaviour of `chat_completion`.  (i) A non-retryable
first failure propagates with no retry and no wait.  (ii) If attempt `m`
(`m ≤ max_retries`) succeeds after `m` retryable failures, the success is
returned after exactly `m` retries, the wait before the retry following
failed attempt `k` being `min(base_delay * 2^k, 20)` plus the drawn jitter.
(iii) If every attempt fails retryably, the loop performs exactly
`max_retries` retries and re-raises the last attempt's error.  (iv) Each
jitter is at most 10% of the computed backoff (the draw is from
`[0, backoff * 0.1]`).  The configured default is `max_retries = 3`. -/
theorem chat_completion_retry_schedule (env : RetryEnv) (maxRetries : Nat)
    (baseDelay : ℚ) (hbase : 0 ≤ baseDelay)
    (hrand : ∀ k, 0 ≤ env.rand k ∧ env.rand k ≤ 1) :
    (∀ e, env.attemptResult 0 = .error e → should_retry e = false →
      chat_completion env maxRetries baseDelay = (.error e, [])) ∧
    (∀ m r, m ≤ maxRetries → env.attemptResult m = .ok r →
      (∀ k, k < m → ∃ e, env.attemptResult k = .error e ∧ should_retry e = true) →
      chat_completion env maxRetries baseDelay =
        (.ok r, (List.range m).map (fun k =>
          backoffAt baseDelay k + jitterAt env baseDelay k))) ∧
    ((∀ k, k ≤ maxRetries →
        ∃ e, env.attemptResult k = .error e ∧ should_retry e = true) →
      ∃ e, env.attemptResult maxRetries = .error e ∧
        chat_completion env maxRetries baseDelay =
          (.error e, (List.range maxRetries).map (fun k =>
            backoffAt baseDelay k + jitterAt env baseDelay k))) ∧
    (∀ k, 0 ≤ jitterAt env baseDelay k ∧
      jitterAt env baseDelay k ≤ backoffAt baseDelay k / 10) ∧
    default_max_retries = 3 := by
  have hback : ∀ k, 0 ≤ backoffAt baseDelay k := by
    intro k
    have h1 : (0 : ℚ) ≤ baseDelay * 2 ^ k := by positivity
    have h2 : (0 : ℚ) ≤ 20 := by norm_num
    exact le_min h1 h2
  refine ⟨?_, ?_, ?_, ?_, rfl⟩
  · intro e he hre
    unfold chat_completion chatRetryLoop
    simp only [he]
    rw [dif_pos (Or.inr hre)]
  · intro m r hm hok hfail
    have := chatRetryLoop_ok env maxRetries baseDelay m 0 r (by omega)
      (by rw [Nat.zero_add]; exact hok)
      (fun k hk1 hk2 => hfail k (by omega))
    unfold chat_completion
    rw [this]
    simp only [Nat.zero_add]
  · intro hfail
    obtain ⟨e, he, hloop⟩ := chatRetryLoop_exhaust env maxRetries baseDelay
      maxRetries 0 (by omega) (fun k _ hk2 => hfail k hk2)
    refine ⟨e, he, ?_⟩
    unfold chat_completion
    rw [hloop]
    simp only [Nat.zero_add]
  · intro k
    constructor
    · have := (hrand k).1
      have hb := hback k
      unfold jitterAt
      positivity
    · have h1 := (hrand k).2
      have hb : (0 : ℚ) ≤ backoffAt baseDelay k / 10 := by
        have := hback k
        positivity
      calc jitterAt env baseDelay k = env.rand k * (backoffAt baseDelay k / 10) := rfl
        _ ≤ 1 * (backoffAt baseDelay k / 10) := by
            apply mul_le_mul_of_nonneg_right h1 hb
        _ = backoffAt baseDelay k / 10 := by ring

/-- Witness for C3: two 429 failures then success, with `max_retries = 3`
(the default), `base_delay = 1` and a jitter draw of one half: the call
succeeds after exactly two retries with waits `1 + 0.05` and `2 + 0.1`. -/
theorem chat_completion_retry_schedule_witness :
    chat_completion
      { attemptResult := fun k =>
          if k < 2 then .error (.apiError "rate limited" (some 429) false false)
          else .ok { content := some "hi", toolCalls := [] }
      , rand := fun _ => 1 / 2 }
      3 1 =
      (.ok { content := some "hi", toolCalls := [] }, [21 / 20, 21 / 10]) := by
  have h := (chat_completion_retry_schedule
      { attemptResult := fun k =>
          if k < 2 then .error (.apiError "rate limited" (some 429) false false)
          else .ok { content := some "hi", toolCalls := [] }
      , rand := fun _ => 1 / 2 }
      3 1 (by norm_num) (fun k => ⟨by norm_num, by norm_num⟩)).2.1 2
      { content := some "hi", toolCalls := [] } (by norm_num) rfl
      (by
        intro k hk
        interval_cases k
        · exact ⟨.apiError "rate limited" (some 429) false false, rfl, rfl⟩
        · exact ⟨.apiError "rate limited" (some 429) false false, rfl, rfl⟩)
  rw [h]
  have hr0 : List.range 2 = [0, 1] := rfl
  rw [hr0]
  simp only [List.map_cons, List.map_nil]
  norm_num [backoffAt, jitterAt]

/-- Counterexample to C4 as stated: a malformed (non-JSON) arguments
string makes `extract_response` raise the JSON decode error — it is not
treated as an empty mapping. -/
theorem extract_response_malformed_args_raise
    : extract_response
        { content := none
        , toolCalls := [{ id := "call_1", name := "read_file"
                        , arguments := some "not json" }] } =
      .error (.jsonDecodeError "Expecting value") := rfl

/-- Helper: when every entry's arguments string is `None` or empty, the
wire-call loop succeeds with empty-object arguments throughout. -/
theorem parseWireCalls_empty_payloads (l : List WireToolCall)
    (h : ∀ tc ∈ l, tc.arguments = none ∨ tc.arguments = some "") :
    parseWireCalls l =
      .ok (l.map fun tc => { id := tc.id, name := tc.name, arguments := .obj [] }) := by
  induction l with
  | nil => rfl
  | cons tc rest ih =>
    have hpay : argPayload tc.arguments = "\x7b\x7d" := by
      rcases h tc (List.mem_cons_self tc rest) with h1 | h1 <;> simp [argPayload, h1]
    simp only [parseWireCalls, hpay,
      show json_loads "\x7b\x7d" = .ok (.obj []) from rfl,
      ih (fun tc2 h2 => h tc2 (List.mem_cons_of_mem tc h2)), List.map_cons]

/-- C4 (amended): only a `None` or empty arguments string is replaced by
the empty-object payload `"{}"` — such replies parse to an empty mapping
and do not raise; a malformed non-empty arguments string makes
`extract_response` raise the `json.loads` error (nothing catches it). -/
theorem extract_response_empty_args_defaulted (r : ChatResp)
    (h : ∀ tc ∈ r.toolCalls, tc.arguments = none ∨ tc.arguments = some "") :
    (∃ text, extract_response r =
      .ok (text, r.toolCalls.map fun tc =>
        { id := tc.id, name := tc.name, arguments := .obj [] })) ∧
    (∀ id nm s e, s ≠ "" → json_loads s = .error e →
      extract_response
        { content := none
        , toolCalls := [{ id := id, name := nm, arguments := some s }] } =
        .error e) := by
  constructor
  · refine ⟨match r.content with
      | none => none
      | some c => if c = "" then none else some c, ?_⟩
    simp only [extract_response, parseWireCalls_empty_payloads r.toolCalls h]
  · intro id nm s e hs he
    have hpay : argPayload (some s) = s := by simp [argPayload, hs]
    simp only [extract_response, parseWireCalls, hpay, he]

/-- Witness for C4: a reply whose two tool calls carry `None` and `""`
arguments parses to empty mappings; `"not json"` raises. -/
theorem extract_response_empty_args_defaulted_witness :
    (∃ text, extract_response
      { content := some "x"
      , toolCalls := [{ id := "c1", name := "todo_write", arguments := none }
                     , { id := "c2", name := "cron_list", arguments := some "" }] } =
      .ok (text,
        [{ id := "c1", name := "todo_write", arguments := .obj [] }
        , { id := "c2", name := "cron_list", arguments := .obj [] }])) ∧
    (∀ id nm s e, s ≠ "" → json_loads s = .error e →
      extract_response
        { content := none
        , toolCalls := [{ id := id, name := nm, arguments := some s }] } =
        .error e) :=
  extract_response_empty_args_defaulted
    { content := some "x"
    , toolCalls := [{ id := "c1", name := "todo_write", arguments := none }
                   , { id := "c2", name := "cron_list", arguments := some "" }] }
    (by decide)

/-- Counterexample to C5 as stated: a reply carrying both text content and
a tool call yields non-`None` text alongside the non-empty tool-call
list. -/
theorem extract_response_keeps_text_alongside_tool_calls
    : extract_response
        { content := some "Let me check"
        , toolCalls := [{ id := "call_1", name := "list_dir"
                        , arguments := some "\x7b\x7d" }] } =
      .ok (some "Let me check",
        [{ id := "call_1", name := "list_dir", arguments := .obj [] }]) ∧
      some "Let me check" ≠ (none : Option String) := ⟨rfl, by simp⟩

/-- Helper: a successful wire-call parse preserves length and carries, in
request order, each entry's id, name, and parsed arguments. -/
theorem parseWireCalls_spec :
    ∀ (l : List WireToolCall) (cs : List ToolCall), parseWireCalls l = .ok cs →
    cs.length = l.length ∧
    ∀ i (hi : i < l.length) (hj : i < cs.length),
      (cs.get ⟨i, hj⟩).id = (l.get ⟨i, hi⟩).id ∧
      (cs.get ⟨i, hj⟩).name = (l.get ⟨i, hi⟩).name ∧
      json_loads (argPayload (l.get ⟨i, hi⟩).arguments) =
        .ok (cs.get ⟨i, hj⟩).arguments := by
  intro l
  induction l with
  | nil =>
    intro cs hcs
    simp only [parseWireCalls] at hcs
    cases hcs
    exact ⟨rfl, fun i hi _ => absurd hi (by simp)⟩
  | cons tc rest ih =>
    intro cs hcs
    simp only [parseWireCalls] at hcs
    cases hl : json_loads (argPayload tc.arguments) with
    | error e => rw [hl] at hcs; cases hcs
    | ok args =>
      rw [hl] at hcs
      cases hr : parseWireCalls rest with
      | error e => rw [hr] at hcs; cases hcs
      | ok more =>
        rw [hr] at hcs
        cases hcs
        obtain ⟨hlen, hfields⟩ := ih more hr
        constructor
        · simp [hlen]
        · intro i hi hj
          cases i with
          | zero => exact ⟨rfl, rfl, hl⟩
          | succ i2 =>
            exact hfields i2 (by simpa using hi) (by simpa using hj)

/-- C5 (amended): whenever `extract_response` succeeds on a reply with at
least one requested tool call, the returned tool-call list is non-empty
and carries, in request order, each call's id, name, and parsed arguments;
`text` is `None` exactly when the reply's content is empty or absent (a
reply carrying text alongside tool calls keeps its text). -/
theorem extract_response_tool_calls_in_order (r : ChatResp)
    (text : Option String) (calls : List ToolCall)
    (h : extract_response r = .ok (text, calls)) (hne : r.toolCalls ≠ []) :
    calls ≠ [] ∧ calls.length = r.toolCalls.length ∧
    (∀ i (hi : i < r.toolCalls.length) (hj : i < calls.length),
      (calls.get ⟨i, hj⟩).id = (r.toolCalls.get ⟨i, hi⟩).id ∧
      (calls.get ⟨i, hj⟩).name = (r.toolCalls.get ⟨i, hi⟩).name ∧
      json_loads (argPayload ((r.toolCalls.get ⟨i, hi⟩).arguments)) =
        .ok ((calls.get ⟨i, hj⟩).arguments)) ∧
    (text = none ↔ (r.content = none ∨ r.content = some "")) := by
  cases hp : parseWireCalls r.toolCalls with
  | error e => simp [extract_response, hp] at h
  | ok cs =>
    simp only [extract_response, hp, Except.ok.injEq, Prod.mk.injEq] at h
    obtain ⟨htext, hcalls⟩ := h
    subst hcalls
    obtain ⟨hlen, hfields⟩ := parseWireCalls_spec r.toolCalls cs hp
    refine ⟨?_, hlen, hfields, ?_⟩
    · intro hnil
      apply hne
      rw [hnil] at hlen
      exact List.eq_nil_of_length_eq_zero hlen.symm
    · subst htext
      cases hc : r.content with
      | none => simp
      | some c =>
        by_cases hcv : c = "" <;> simp [hcv]

/-- C6: when a model reply carries no tool calls, the loop appends the
single synthetic user-role continuation message and proceeds to the next
round — but only if the session's todo list has an incomplete item and the
one-shot flag is still unset (the flag is set in the recursive call, so
the nudge fires at most once per invocation); once the flag is set, a
no-tool-call reply is accepted as the final answer regardless of the todo
list, persisted as the assistant message. -/
theorem todo_nudge_fires_once
    (env : AgentEnv) (fuel : Nat) (messages sess : List Msg)
    (trace : List ChatReq) (ts : ToolState) (resp : ChatResp) (text : Option String)
    (hchat : env.chat trace.length = .ok resp)
    (hex : extract_response resp = .ok (text, [])) :
    (_session_has_incomplete_todos ts = true →
      runRounds env (fuel + 1) messages sess false trace ts =
        runRounds env fuel (messages ++ [Msg.user TODO_NUDGE_TEXT]) sess true
          (trace ++ [{ msgs := messages, toolsEnabled := true }]) ts) ∧
    (runRounds env (fuel + 1) messages sess true trace ts =
      .ok { final := text.getD "(no response)"
          , sess := sess ++ [Msg.assistant (text.getD "(no response)")]
          , msgs := messages
          , calls := trace ++ [{ msgs := messages, toolsEnabled := true }]
          , ts := ts }) := by
  constructor
  · intro hinc
    simp only [runRounds, hchat, hex, hinc, Bool.not_false, Bool.true_and, if_true]
  · simp only [runRounds, hchat, hex, Bool.not_true, Bool.false_and, Bool.false_eq_true,
      if_false]

/-- Witness for C6: with one pending todo and a model that twice replies
without tool calls, the first reply triggers the nudge and the second is
accepted as final — `run()` makes exactly two model calls and returns the
second reply's text. -/
theorem todo_nudge_fires_once_witness :
    runRounds
      { chat := fun k =>
          if k = 0 then .ok { content := some "pausing here", toolCalls := [] }
          else .ok { content := some "all finished", toolCalls := [] }
      , registry := fun _ => none
      , systemPrompt := "sys", sessionId := "default" }
      25 [Msg.system "sys", Msg.user "go"] [Msg.user "go"] false []
      { todos := fun s => if s = "default"
          then [{ content := "write report", status := .pending }] else []
      , active := "default" } =
      runRounds
        { chat := fun k =>
            if k = 0 then .ok { content := some "pausing here", toolCalls := [] }
            else .ok { content := some "all finished", toolCalls := [] }
        , registry := fun _ => none
        , systemPrompt := "sys", sessionId := "default" }
        24 [Msg.system "sys", Msg.user "go", Msg.user TODO_NUDGE_TEXT] [Msg.user "go"]
        true [{ msgs := [Msg.system "sys", Msg.user "go"], toolsEnabled := true }]
        { todos := fun s => if s = "default"
            then [{ content := "write report", status := .pending }] else []
        , active := "default" } ∧
    (agent_run
      { chat := fun k =>
          if k = 0 then .ok { content := some "pausing here", toolCalls := [] }
          else .ok { content := some "all finished", toolCalls := [] }
      , registry := fun _ => none
      , systemPrompt := "sys", sessionId := "default" }
      [] "go"
      { todos := fun s => if s = "default"
          then [{ content := "write report", status := .pending }] else []
      , active := "default" }).map (fun o => (o.final, o.calls.length)) =
      .ok ("all finished", 2) := by
  constructor
  · exact (todo_nudge_fires_once
      { chat := fun k =>
          if k = 0 then .ok { content := some "pausing here", toolCalls := [] }
          else .ok { content := some "all finished", toolCalls := [] }
      , registry := fun _ => none
      , systemPrompt := "sys", sessionId := "default" }
      24 [Msg.system "sys", Msg.user "go"] [Msg.user "go"] []
      { todos := fun s => if s = "default"
          then [{ content := "write report", status := .pending }] else []
      , active := "default" }
      { content := some "pausing here", toolCalls := [] }
      (some "pausing here") rfl rfl).1 rfl
  · rfl

/-- Counterexample to C7 as stated: the extra summary call can succeed yet
yield empty text; `run` then returns the canned fallback, not the model
text prefixed with the max-iteration marker.  Here every one of the 25
rounds requests an unknown tool, the 26th (summary) call succeeds with
empty content, and the final answer is the canned message. -/
theorem max_iterations_empty_summary_not_prefixed
    : (agent_run
        { chat := fun k =>
            if k < 25 then
              .ok { content := none
                  , toolCalls := [{ id := "c", name := "noop"
                                  , arguments := some "\x7b\x7d" }] }
            else .ok { content := some "", toolCalls := [] }
        , registry := fun _ => none
        , systemPrompt := "sys", sessionId := "web_u" }
        [] "go" { todos := fun _ => [], active := "default" }).map
          (fun o => (o.final, o.calls.length)) =
      .ok ("I reached the maximum number of tool iterations without a final answer.",
        26) ∧
    (fun k =>
        if k < 25 then
          .ok { content := none
              , toolCalls := [{ id := "c", name := "noop"
                              , arguments := some ("\x7b\x7d" : String) }] }
        else .ok { content := some "", toolCalls := ([] : List WireToolCall) } : Nat → Except PyExc ChatResp)
      25 = .ok { content := some "", toolCalls := [] } ∧
    pyStartsWith
      "I reached the maximum number of tool iterations without a final answer."
      "[Max iterations reached]" = false := ⟨rfl, rfl, rfl⟩

/-- C7 (amended): at exhaustion of the 25 rounds the loop issues exactly
one additional model call with tools disabled and the fixed summary
instruction appended, and persists the resulting text as the final
assistant message.  That text is the model's stripped reply prefixed with
the max-iteration marker when the reply carries non-whitespace text; when
the extra call raises, or its reply carries no text or only-whitespace
text (or fails to parse), the fixed canned message is returned instead. -/
theorem max_iterations_summary_behaviour (env : AgentEnv) :
    (∀ messages sess prompted trace ts,
      runRounds env 0 messages sess prompted trace ts =
        .ok { final := (_summarize_max_iterations env trace.length messages).1
            , sess := sess ++
                [Msg.assistant (_summarize_max_iterations env trace.length messages).1]
            , msgs := messages
            , calls := trace ++ [(_summarize_max_iterations env trace.length messages).2]
            , ts := ts }) ∧
    (∀ k messages, (_summarize_max_iterations env k messages).2 =
      { msgs := messages ++ [Msg.user MAX_ITERATIONS_SUMMARY_PROMPT]
      , toolsEnabled := false }) ∧
    (∀ k messages e, env.chat k = .error e →
      (_summarize_max_iterations env k messages).1 = MAX_ITERATIONS_FALLBACK) ∧
    (∀ k messages resp t rest, env.chat k = .ok resp →
      extract_response resp = .ok (some t, rest) → pyStrip t ≠ "" →
      (_summarize_max_iterations env k messages).1 =
        "[Max iterations reached]\n\n" ++ pyStrip t) ∧
    (∀ k messages resp t rest, env.chat k = .ok resp →
      extract_response resp = .ok (some t, rest) → pyStrip t = "" →
      (_summarize_max_iterations env k messages).1 = MAX_ITERATIONS_FALLBACK) ∧
    (∀ k messages resp rest, env.chat k = .ok resp →
      extract_response resp = .ok (none, rest) →
      (_summarize_max_iterations env k messages).1 = MAX_ITERATIONS_FALLBACK) ∧
    (∀ k messages resp e, env.chat k = .ok resp →
      extract_response resp = .error e →
      (_summarize_max_iterations env k messages).1 = MAX_ITERATIONS_FALLBACK) ∧
    MAX_TOOL_ITERATIONS = 25 := by
  refine ⟨fun _ _ _ _ _ => rfl, fun _ _ => rfl, ?_, ?_, ?_, ?_, ?_, rfl⟩
  · intro k messages e hchat
    simp only [_summarize_max_iterations, hchat]
  · intro k messages resp t rest hchat hex hne
    simp only [_summarize_max_iterations, hchat, hex, if_neg hne]
  · intro k messages resp t rest hchat hex hyes
    simp only [_summarize_max_iterations, hchat, hex, if_pos hyes]
  · intro k messages resp rest hchat hex
    simp only [_summarize_max_iterations, hchat, hex]
  · intro k messages resp e hchat hex
    simp only [_summarize_max_iterations, hchat, hex]

/-- Witness for C7: a summary reply of `"  progress made  "` is stripped
and prefixed with the marker; a raising summary call falls back to the
canned message; the exhaustion round issues the tools-disabled request. -/
theorem max_iterations_summary_behaviour_witness :
    (_summarize_max_iterations
      { chat := fun _ => .ok { content := some "  progress made  ", toolCalls := [] }
      , registry := fun _ => none, systemPrompt := "sys", sessionId := "s" }
      0 [Msg.system "sys"]).1 = "[Max iterations reached]\n\nprogress made" ∧
    (_summarize_max_iterations
      { chat := fun _ => .error (.apiError "boom" (some 500) false false)
      , registry := fun _ => none, systemPrompt := "sys", sessionId := "s" }
      0 [Msg.system "sys"]).1 =
      "I reached the maximum number of tool iterations without a final answer." ∧
    (_summarize_max_iterations
      { chat := fun _ => .ok { content := some "  progress made  ", toolCalls := [] }
      , registry := fun _ => none, systemPrompt := "sys", sessionId := "s" }
      0 [Msg.system "sys"]).2 =
      { msgs := [Msg.system "sys", Msg.user MAX_ITERATIONS_SUMMARY_PROMPT]
      , toolsEnabled := false } := by
  refine ⟨?_, ?_, ?_⟩
  · rw [(max_iterations_summary_behaviour
      { chat := fun _ => .ok { content := some "  progress made  ", toolCalls := [] }
      , registry := fun _ => none, systemPrompt := "sys", sessionId := "s" }).2.2.2.1
      0 [Msg.system "sys"]
      { content := some "  progress made  ", toolCalls := [] }
      "  progress made  " [] rfl rfl (by decide)]
    rfl
  · exact (max_iterations_summary_behaviour
      { chat := fun _ => .error (.apiError "boom" (some 500) false false)
      , registry := fun _ => none, systemPrompt := "sys", sessionId := "s" }).2.2.1
      0 [Msg.system "sys"] (.apiError "boom" (some 500) false false) rfl
  · exact (max_iterations_summary_behaviour
      { chat := fun _ => .ok { content := some "  progress made  ", toolCalls := [] }
      , registry := fun _ => none, systemPrompt := "sys", sessionId := "s" }).2.1
      0 [Msg.system "sys"]

/-- C8: subagent recursion is capped at one level.  At depth at least 1
`spawn_subagent` returns the error string and creates no child (no
grandchild conversation, no child run).  The depth travels with the call
context: `spawn_in_context` computes exactly `spawn_subagent` at the
calling chain's own depth, restores every context entry afterwards
(`set` then `reset`), so concurrent chains' depth accounting is
untouched; a created child runs at the caller's depth plus one, at which
any nested spawn returns the error and creates nothing. -/
theorem spawn_subagent_depth_capped (env : SpawnEnv) (store : String → Nat)
    (chain task prefixArg : String) :
    (∀ depth, 1 ≤ depth → spawn_subagent env depth task prefixArg =
      { result := "Error: subagent nesting depth exceeded.", child := none }) ∧
    ((spawn_in_context env store chain task prefixArg).1 =
      spawn_subagent env (store chain) task prefixArg) ∧
    (∀ c, (spawn_in_context env store chain task prefixArg).2 c = store c) ∧
    (∀ prompt d, (spawn_subagent env (store chain) task prefixArg).child =
        some (prompt, d) →
      d = store chain + 1 ∧
      ∀ env2 task2 prefixArg2, spawn_subagent env2 d task2 prefixArg2 =
        { result := "Error: subagent nesting depth exceeded.", child := none }) := by
  refine ⟨?_, ?_, ?_, ?_⟩
  · intro depth hd
    simp [spawn_subagent, hd]
  · by_cases h1 : 1 ≤ store chain
    · simp [spawn_subagent, spawn_in_context, h1]
    · by_cases h2 : pyStrip task = ""
      · simp [spawn_subagent, spawn_in_context, h1, h2]
      · simp [spawn_subagent, spawn_in_context, h1, h2, ctxSet]
  · intro c
    by_cases h1 : 1 ≤ store chain
    · simp [spawn_in_context, h1]
    · by_cases h2 : pyStrip task = ""
      · simp [spawn_in_context, h1, h2]
      · by_cases hc : c = chain
        · simp [spawn_in_context, h1, h2, ctxSet, hc]
        · simp [spawn_in_context, h1, h2, ctxSet, hc]
  · intro prompt d hchild
    by_cases h1 : 1 ≤ store chain
    · simp [spawn_subagent, h1] at hchild
    · by_cases h2 : pyStrip task = ""
      · simp [spawn_subagent, h1, h2] at hchild
      · simp only [spawn_subagent, if_neg h1, if_neg h2, Option.some.injEq,
          Prod.mk.injEq] at hchild
        obtain ⟨-, hd⟩ := hchild
        refine ⟨hd.symm, ?_⟩
        intro env2 task2 prefixArg2
        simp [spawn_subagent, show 1 ≤ d by omega]

/-- Witness for C8: inside a subagent context (depth 1) the spawn tool
returns the error and creates nothing; from a top-level chain at depth 0
the child is created at depth 1 while a concurrent chain's depth entry is
untouched and the caller's own entry is restored. -/
theorem spawn_subagent_depth_capped_witness :
    spawn_subagent
      { childRun := fun _ _ => "child result", childSessionId := "sub_a_1700000000" }
      1 "Summarize the repo" "" =
      { result := "Error: subagent nesting depth exceeded.", child := none } ∧
    (spawn_in_context
      { childRun := fun _ _ => "child result", childSessionId := "sub_a_1700000000" }
      (fun c => if c = "conv_b" then 1 else 0) "conv_a" "Summarize the repo" "").2
      "conv_b" = 1 ∧
    (spawn_in_context
      { childRun := fun _ _ => "child result", childSessionId := "sub_a_1700000000" }
      (fun c => if c = "conv_b" then 1 else 0) "conv_a" "Summarize the repo" "").2
      "conv_a" = 0 ∧
    (spawn_subagent
      { childRun := fun _ _ => "child result", childSessionId := "sub_a_1700000000" }
      0 "Summarize the repo" "").child = some ("Summarize the repo", 1) := by
  have h := spawn_subagent_depth_capped
    { childRun := fun _ _ => "child result", childSessionId := "sub_a_1700000000" }
    (fun c => if c = "conv_b" then 1 else 0) "conv_a" "Summarize the repo" ""
  exact ⟨h.1 1 (by norm_num), h.2.2.1 "conv_b", h.2.2.1 "conv_a", rfl⟩

/-- The docstring scan yields nothing exactly when no line carries the
parameter's tag. -/
theorem findParamDescription_eq_none_iff (l : List String) (n : String) :
    findParamDescription l n = none ↔
      ∀ line ∈ l, splitAfterTag (paramTag n) line = none := by
  induction l with
  | nil => simp [findParamDescription]
  | cons line rest ih =>
    cases hline : splitAfterTag (paramTag n) line with
    | some tail => simp [findParamDescription, hline]
    | none => simp [findParamDescription, hline, ih]

/-- A found parameter description is the stripped remainder after the tag
of some docstring line carrying the tag. -/
theorem findParamDescription_some_spec (l : List String) (n : String) :
    ∀ s, findParamDescription l n = some s →
      ∃ line ∈ l, ∃ tail, splitAfterTag (paramTag n) line = some tail ∧
        s = pyStrip tail := by
  induction l with
  | nil => intro s hs; simp [findParamDescription] at hs
  | cons line rest ih =>
    intro s hs
    cases hline : splitAfterTag (paramTag n) line with
    | some tail =>
      rw [findParamDescription, hline] at hs
      cases hs
      exact ⟨line, List.mem_cons_self line rest, tail, hline, rfl⟩
    | none =>
      rw [findParamDescription, hline] at hs
      obtain ⟨l2, hl2, tail, htail, hstrip⟩ := ih s hs
      exact ⟨l2, List.mem_cons_of_mem line hl2, tail, htail, hstrip⟩

/-- C9: for a registered callable with a docstring, the generated schema's
name is the callable's identifier, its description is the stripped first
docstring line, each parameter entry carries the inferred primitive type
(str/int/float/bool map to string/integer/number/boolean, `list[...]` to
an array of the inferred element type, and a missing or unresolvable
annotation defaults to string) together with an optional description found
on a `":param <name>:"` docstring line (first such line wins, stripped
remainder; absent exactly when no line carries the tag), and a parameter
is listed as required exactly when it has no default value. -/
theorem build_tool_schemas_derivation (fn : PyFn) (d : String)
    (hdoc : fn.doc = some d)
    (hnodup : (fn.params.map (fun p => p.name)).Nodup) :
    (∀ fns : List PyFn, build_tool_schemas fns = fns.map build_tool_schema) ∧
    (build_tool_schema fn).name = fn.name ∧
    (build_tool_schema fn).description = pyStrip ((pySplitLines d).headD "") ∧
    (build_tool_schema fn).properties = fn.params.map (fun p =>
      (p.name, { ty := _python_type_to_json_schema p.ann
               , description := findParamDescription (pySplitLines d) p.name })) ∧
    (∀ p ∈ fn.params,
      (p.name ∈ (build_tool_schema fn).required ↔ p.hasDefault = false)) ∧
    (∀ n, findParamDescription (pySplitLines d) n = none ↔
      ∀ line ∈ pySplitLines d, splitAfterTag (paramTag n) line = none) ∧
    (∀ n s, findParamDescription (pySplitLines d) n = some s →
      ∃ line ∈ pySplitLines d, ∃ tail,
        splitAfterTag (paramTag n) line = some tail ∧ s = pyStrip tail) ∧
    _python_type_to_json_schema .pyStr = .string ∧
    _python_type_to_json_schema .pyInt = .integer ∧
    _python_type_to_json_schema .pyFloat = .number ∧
    _python_type_to_json_schema .pyBool = .boolean ∧
    (∀ a, _python_type_to_json_schema (.pyList a) =
      .array (_python_type_to_json_schema a)) ∧
    _python_type_to_json_schema .empty = .string ∧
    (∀ s, _python_type_to_json_schema (.unresolved s) = .string) := by
  refine ⟨fun _ => rfl, rfl, ?_, ?_, ?_,
    fun n => findParamDescription_eq_none_iff (pySplitLines d) n,
    fun n s => findParamDescription_some_spec (pySplitLines d) n s,
    rfl, rfl, rfl, rfl, fun _ => rfl, rfl, fun _ => rfl⟩
  · simp [build_tool_schema, hdoc]
  · simp [build_tool_schema, hdoc]
  · intro p hp
    constructor
    · intro hmem
      simp only [build_tool_schema, List.mem_map] at hmem
      obtain ⟨q, hq, hqname⟩ := hmem
      have hq2 := List.mem_filter.1 hq
      have : q = p := List.inj_on_of_nodup_map hnodup hq2.1 hp hqname
      rw [← this]
      simpa using hq2.2
    · intro hdef
      simp only [build_tool_schema, List.mem_map]
      exact ⟨p, List.mem_filter.2 ⟨hp, by simp [hdef]⟩, rfl⟩

/-- Witness for C9 on a concrete callable: `read_file(path: str,
max_chars: int = 12000)` with its docstring — `path` is required with a
tag-derived description, `max_chars` is optional with an integer type. -/
theorem build_tool_schemas_derivation_witness :
    (build_tool_schema
      { name := "read_file"
      , doc := some "Read a UTF-8 text file from workspace.\n\n:param path: Relative file path inside workspace.\n:param max_chars: Maximum chars to return."
      , params := [ { name := "path", ann := .pyStr, hasDefault := false }
                  , { name := "max_chars", ann := .pyInt, hasDefault := true } ] }).name
      = "read_file" ∧
    (build_tool_schema
      { name := "read_file"
      , doc := some "Read a UTF-8 text file from workspace.\n\n:param path: Relative file path inside workspace.\n:param max_chars: Maximum chars to return."
      , params := [ { name := "path", ann := .pyStr, hasDefault := false }
                  , { name := "max_chars", ann := .pyInt, hasDefault := true } ] }).description
      = "Read a UTF-8 text file from workspace." ∧
    "path" ∈ (build_tool_schema
      { name := "read_file"
      , doc := some "Read a UTF-8 text file from workspace.\n\n:param path: Relative file path inside workspace.\n:param max_chars: Maximum chars to return."
      , params := [ { name := "path", ann := .pyStr, hasDefault := false }
                  , { name := "max_chars", ann := .pyInt, hasDefault := true } ] }).required ∧
    (build_tool_schema
      { name := "read_file"
      , doc := some "Read a UTF-8 text file from workspace.\n\n:param path: Relative file path inside workspace.\n:param max_chars: Maximum chars to return."
      , params := [ { name := "path", ann := .pyStr, hasDefault := false }
                  , { name := "max_chars", ann := .pyInt, hasDefault := true } ] }).properties
      = [ ("path",
            { ty := .string
            , description := some "Relative file path inside workspace." })
        , ("max_chars",
            { ty := .integer
            , description := some "Maximum chars to return." }) ] := by
  have h := build_tool_schemas_derivation
    { name := "read_file"
    , doc := some "Read a UTF-8 text file from workspace.\n\n:param path: Relative file path inside workspace.\n:param max_chars: Maximum chars to return."
    , params := [ { name := "path", ann := .pyStr, hasDefault := false }
                , { name := "max_chars", ann := .pyInt, hasDefault := true } ] }
    "Read a UTF-8 text file from workspace.\n\n:param path: Relative file path inside workspace.\n:param max_chars: Maximum chars to return."
    rfl (by decide)
  refine ⟨h.2.1, ?_, ?_, ?_⟩
  · rw [h.2.2.1]
    rfl
  · exact (h.2.2.2.2.1 { name := "path", ann := .pyStr, hasDefault := false }
      (by decide)).mpr rfl
  · rw [h.2.2.2.1]
    rfl

/-- Witness for C5 on a concrete reply with two tool calls and no text:
the extracted list is non-empty, has one entry per request, and the text
is `None` (the content was absent). -/
theorem extract_response_tool_calls_in_order_witness :
    ([{ id := "c1", name := "done", arguments := .obj [("message", .str "hi")] }
     , { id := "c2", name := "list_dir", arguments := .obj [] }] : List ToolCall) ≠ [] ∧
    ([{ id := "c1", name := "done", arguments := .obj [("message", .str "hi")] }
     , { id := "c2", name := "list_dir", arguments := .obj [] }] : List ToolCall).length =
      ([{ id := "c1", name := "done", arguments := some "\x7b\"message\": \"hi\"\x7d" }
       , { id := "c2", name := "list_dir", arguments := none }] :
        List WireToolCall).length ∧
    ((none : Option String) = none ↔
      ((none : Option String) = none ∨ (none : Option String) = some "")) := by
  have h := extract_response_tool_calls_in_order
    { content := none
    , toolCalls := [{ id := "c1", name := "done"
                    , arguments := some "\x7b\"message\": \"hi\"\x7d" }
                   , { id := "c2", name := "list_dir", arguments := none }] }
    none
    [{ id := "c1", name := "done", arguments := .obj [("message", .str "hi")] }
    , { id := "c2", name := "list_dir", arguments := .obj [] }]
    rfl (by simp)
  exact ⟨h.1, h.2.1, h.2.2.2⟩

/-- C10: a `done` call whose message is empty or whitespace-only returns
the bare completion marker (the f-string pads it with one space, which
`strip()` removes again); `_extract_done_message` then falls back to
"Task completed.", and a round dispatching such a call returns exactly
"Task completed." as the final answer, persisted as the assistant
message — never an empty string. -/
theorem done_empty_message_task_completed (s : String) (h : s.data.all isPySpace) :
    done (.str s) = TASK_COMPLETE_MARK ∧
    _extract_done_message "done" (done (.str s)) = some "Task completed." ∧
    (∀ env fuel messages sess prompted trace ts resp
        (text : Option String) (id : String),
      env.chat trace.length = .ok resp →
      env.registry "done" = some doneTool →
      extract_response resp = .ok (text,
        [{ id := id, name := "done", arguments := .obj [("message", .str s)] }]) →
      runRounds env (fuel + 1) messages sess prompted trace ts =
        .ok { final := "Task completed."
            , sess := sess ++
                [Msg.assistantToolCalls resp.content
                   [{ id := id, name := "done"
                    , arguments := .obj [("message", .str s)] }]
                , Msg.toolResult id "done" TASK_COMPLETE_MARK
                , Msg.assistant "Task completed."]
            , msgs := messages ++
                [Msg.assistantToolCalls resp.content
                   [{ id := id, name := "done"
                    , arguments := .obj [("message", .str s)] }]
                , Msg.toolResult id "done" TASK_COMPLETE_MARK]
            , calls := trace ++ [{ msgs := messages, toolsEnabled := true }]
            , ts := ts }) := by
  have h1 : done (.str s) = TASK_COMPLETE_MARK := pyStrip_mark_pad s h
  have h2 : _extract_done_message "done" (done (.str s)) = some "Task completed." := by
    rw [h1]
    rfl
  refine ⟨h1, h2, ?_⟩
  intro env fuel messages sess prompted trace ts resp text id hchat hreg hex
  have hcall : callTool doneTool (.obj [("message", .str s)]) ts =
      (.ok (done (.str s)), ts) := rfl
  have hexec : _execute_tool env.registry ts "done" (.obj [("message", .str s)]) =
      (TASK_COMPLETE_MARK, ts) := by
    simp only [_execute_tool, hreg, hcall, h1]
  simp only [runRounds, hchat, hex, execToolCalls, hexec]
  rw [show _extract_done_message "done" TASK_COMPLETE_MARK = some "Task completed."
    from rfl]
  simp

/-- Witness for C10 at a whitespace-only message: the `done` result is the
bare marker, the extracted answer is "Task completed.", and a full run
whose model calls `done` with a blank message returns "Task completed.". -/
theorem done_empty_message_task_completed_witness :
    done (.str " ") = TASK_COMPLETE_MARK ∧
    _extract_done_message "done" (done (.str " ")) = some "Task completed." ∧
    (agent_run
      { chat := fun k =>
          if k = 0 then
            .ok { content := none
                , toolCalls := [{ id := "call_9", name := "done"
                                , arguments := some "\x7b\"message\": \" \"\x7d" }] }
          else .error (.otherError "no further call")
      , registry := fun n => if n = "done" then some doneTool else none
      , systemPrompt := "sys", sessionId := "web_user" }
      [] "wrap up" { todos := fun _ => [], active := "default" }).map
        (fun o => o.final) = .ok "Task completed." := by
  have h := done_empty_message_task_completed " " (by decide)
  exact ⟨h.1, h.2.1, rfl⟩
